import Mathlib

/-!
Verification development for the career-hub backend core:
the Profile / Experience / Project ownership, visibility and ordering
subsystem (models in `app/models`, schemas in `app/schemas`, services in
`app/services`).  Machine integers are modelled as `Int`/`Nat`, dates as
`Nat` ordinals (only their linear order is used), the relational store as
in-memory lists, and fallible operations as `Except`.
-/

/-- Python string truthiness and `str.strip` helpers.  `pyIsSpace` matches the
whitespace characters stripped by Python `str.strip()` (ASCII subset). -/
def pyIsSpace (c : Char) : Bool :=
  c = ' ' || c = '\t' || c = '\n' || c = '\r' || c = '\x0b' || c = '\x0c'

/-- Python `str.strip()`: drop leading and trailing whitespace. -/
def pyStrip (s : String) : String :=
  String.mk (((s.data.dropWhile pyIsSpace).reverse.dropWhile pyIsSpace).reverse)

/-- Python `str.lower()` (ASCII-relevant part). -/
def pyLower (s : String) : String :=
  String.mk (s.data.map Char.toLower)

/-- Python `int or fallback`: an `int` is falsy exactly when it is `0`. -/
def pyIntOr (a fallback : Int) : Int :=
  if a ≠ 0 then a else fallback

/-- Model of `app/models/profile.py` `Profile` columns.  `contact` and
`draft_data` are open key-value maps (JSONB), modelled as association lists;
timestamps are `Nat` ordinals. -/
structure Profile where
  id : String
  user_id : String
  slug : Option String
  headline : Option String
  summary : Option String
  location : Option String
  visibility : String
  contact : List (String × String)
  draft_data : Option (List (String × String))
  profile_photo_url : Option String
  completeness_score : Int
  created_at : Nat
  deriving Repr, DecidableEq

/-- Model of `app/models/experience.py` `Experience` columns.  Dates are `Nat`
ordinals (only comparisons are used by the verified operations). -/
structure Experience where
  id : String
  profile_id : String
  company_name : String
  company_website : Option String
  company_size : Option String
  industry : Option String
  company_location : Option String
  position : String
  employment_type : Option String
  start_date : Nat
  end_date : Option Nat
  is_current : Bool
  description : Option String
  responsibilities : List String
  technologies : List String
  display_order : Int
  created_at : Nat
  deriving Repr, DecidableEq

/-- Model of `app/models/project.py` `Project` columns. -/
structure Project where
  id : String
  profile_id : String
  name : String
  description : Option String
  status : String
  category : String
  scale : String
  start_date : Option String
  end_date : Option String
  client : Option String
  technologies : List String
  achievements : List String
  challenges : List String
  display_order : Int
  created_at : Nat
  deriving Repr, DecidableEq

/-- The relational store: the three entity tables as lists of rows. -/
structure DB where
  profiles : List Profile
  experiences : List Experience
  projects : List Project
  deriving Repr, DecidableEq

/-- Error kinds raised by the modelled services.  `validationFailure` stands
for a pydantic `ValueError` raised while parsing the request schema, i.e.
before the service (and hence before any store mutation) runs. -/
inductive ServiceError where
  | authenticationError (msg : String)
  | experienceNotFoundError (msg : String)
  | profileNotFoundError (msg : String)
  | projectNotFoundError (msg : String)
  | validationFailure (msg : String)
  deriving Repr, DecidableEq

/-- `Profile.can_view` from `app/models/profile.py` lines 118-125. -/
def Profile.can_view (p : Profile) (viewer_user_id : Option String) : Bool :=
  if p.visibility = "PUBLIC" then true
  else if p.visibility = "PRIVATE" then viewer_user_id = some p.user_id
  else viewer_user_id = some p.user_id

/-- `Profile.calculate_completeness` from `app/models/profile.py` lines 80-108.
The ORM relationship `self.experiences` is passed explicitly as the list of
the profile's experience rows. -/
def Profile.calculate_completeness (p : Profile) (experiences : List Experience) : Int :=
  let score : Int := 0
  let score : Int :=
    if (match p.headline with
        | some h => h ≠ "" && pyStrip h ≠ ""
        | none => false) then score + 10 else score
  let score : Int :=
    if (match p.summary with
        | some s => s ≠ "" && (pyStrip s).length > 100
        | none => false) then score + 20 else score
  let score : Int := score + (min (experiences.length * 10) 30 : Nat)
  min score 100

/-- `Experience.add_responsibility` from `app/models/experience.py` lines
93-99: the guard `if not self.responsibilities` only normalises a missing list
to `[]`, the identity on a list value; the membership test uses the raw
argument while the appended element is the stripped argument. -/
def Experience.add_responsibility (e : Experience) (responsibility : String) : Experience :=
  if pyStrip responsibility ≠ "" && !(e.responsibilities.contains responsibility) then
    { e with responsibilities := e.responsibilities ++ [pyStrip responsibility] }
  else e

/-- `Experience.remove_responsibility` from `app/models/experience.py` lines
101-104. -/
def Experience.remove_responsibility (e : Experience) (responsibility : String) : Experience :=
  if e.responsibilities ≠ [] && e.responsibilities.contains responsibility then
    { e with responsibilities := e.responsibilities.filter (fun r => r ≠ responsibility) }
  else e

/-- `Experience.add_technology` from `app/models/experience.py` lines 106-112:
same shape as `add_responsibility`. -/
def Experience.add_technology (e : Experience) (technology : String) : Experience :=
  if pyStrip technology ≠ "" && !(e.technologies.contains technology) then
    { e with technologies := e.technologies ++ [pyStrip technology] }
  else e

/-- `Experience.remove_technology` from `app/models/experience.py` lines
114-117. -/
def Experience.remove_technology (e : Experience) (technology : String) : Experience :=
  if e.technologies ≠ [] && e.technologies.contains technology then
    { e with technologies := e.technologies.filter (fun t => t ≠ technology) }
  else e

/-- A sample profile used as a base record for concrete instances. -/
def sampleProfile : Profile :=
  { id := "P1", user_id := "u1", slug := none, headline := none, summary := none,
    location := none, visibility := "PRIVATE", contact := [], draft_data := none,
    profile_photo_url := none, completeness_score := 0, created_at := 0 }

/-- A sample experience used as a base record for concrete instances. -/
def sampleExperience : Experience :=
  { id := "E1", profile_id := "P1", company_name := "Acme", company_website := none,
    company_size := none, industry := none, company_location := none,
    position := "Dev", employment_type := none, start_date := 100, end_date := none,
    is_current := false, description := none, responsibilities := [],
    technologies := [], display_order := 0, created_at := 0 }

/-- Allowed values in `ExperienceBase.validate_employment_type`
(`app/schemas/experience.py`). -/
def allowedEmploymentTypes : List String :=
  ["FULL_TIME", "PART_TIME", "CONTRACT", "FREELANCE", "INTERNSHIP", "TEMPORARY"]

/-- Allowed values in `ExperienceBase.validate_company_size`. -/
def allowedCompanySizes : List String :=
  ["1-10", "11-50", "51-200", "201-500", "501-1000", "1001-5000", "5000+"]

/-- Parsed `ExperienceCreate` payload (`app/schemas/experience.py` lines
13-82); pydantic defaults are already applied, in particular `display_order`
is `0` when the field was omitted from the request. -/
structure ExperienceCreate where
  company_name : String
  company_website : Option String
  company_size : Option String
  industry : Option String
  company_location : Option String
  position : String
  employment_type : Option String
  start_date : Nat
  end_date : Option Nat
  is_current : Bool
  description : Option String
  responsibilities : List String
  technologies : List String
  display_order : Int
  deriving Repr, DecidableEq

/-- `ExperienceUpdate` patch (`app/schemas/experience.py` lines 85-127) with
`exclude_unset` semantics: the outer `Option` is `none` when the field was
absent from the request; for nullable columns the inner `Option` is the value
written (explicit null clears the column). -/
structure ExperienceUpdate where
  company_name : Option String := none
  company_website : Option (Option String) := none
  company_size : Option (Option String) := none
  industry : Option (Option String) := none
  company_location : Option (Option String) := none
  position : Option String := none
  employment_type : Option (Option String) := none
  start_date : Option Nat := none
  end_date : Option (Option Nat) := none
  is_current : Option Bool := none
  description : Option (Option String) := none
  responsibilities : Option (List String) := none
  technologies : Option (List String) := none
  display_order : Option Int := none
  deriving Repr, DecidableEq

/-- `validate_company_size`: a set field must hold an allowed value. -/
def checkCompanySize (v : Option String) : Except ServiceError Unit :=
  match v with
  | none => .ok ()
  | some s =>
    if allowedCompanySizes.contains s then .ok ()
    else .error (.validationFailure "Company size must be one of the allowed values")

/-- `validate_employment_type`: a set field must hold an allowed value. -/
def checkEmploymentType (v : Option String) : Except ServiceError Unit :=
  match v with
  | none => .ok ()
  | some s =>
    if allowedEmploymentTypes.contains s then .ok ()
    else .error (.validationFailure "Employment type must be one of the allowed values")

/-- `validate_end_date`: a present end date must be strictly after the start
date. -/
def checkEndDate (start_date : Nat) (end_date : Option Nat) : Except ServiceError Unit :=
  match end_date with
  | none => .ok ()
  | some e =>
    if e ≤ start_date then .error (.validationFailure "End date must be after start date")
    else .ok ()

/-- `validate_current_position`: a current position cannot carry an end
date. -/
def checkIsCurrent (is_current : Bool) (end_date : Option Nat) : Except ServiceError Unit :=
  if is_current && end_date.isSome then
    .error (.validationFailure "Current position cannot have an end date")
  else .ok ()

/-- Pydantic validation of `ExperienceCreate`, in field declaration order
(`company_size`, `employment_type`, `end_date`, `is_current`). -/
def validateExperienceCreate (d : ExperienceCreate) : Except ServiceError ExperienceCreate := do
  checkCompanySize d.company_size
  checkEmploymentType d.employment_type
  checkEndDate d.start_date d.end_date
  checkIsCurrent d.is_current d.end_date
  pure d

/-- Pydantic validation of `ExperienceUpdate`: only `employment_type` and
`company_size` carry validators in the update schema; the date and
current-position validators of `ExperienceBase` are not present there. -/
def validateExperienceUpdate (u : ExperienceUpdate) : Except ServiceError ExperienceUpdate := do
  checkCompanySize u.company_size.join
  checkEmploymentType u.employment_type.join
  pure u

/-- Field-by-field application of an `ExperienceUpdate` patch, as the
`setattr` loop in `ExperienceService.update_experience` does for fields
present in `dict(exclude_unset=True)`. -/
def applyExperienceUpdate (e : Experience) (u : ExperienceUpdate) : Experience :=
  { e with
    company_name := u.company_name.getD e.company_name
    company_website := u.company_website.getD e.company_website
    company_size := u.company_size.getD e.company_size
    industry := u.industry.getD e.industry
    company_location := u.company_location.getD e.company_location
    position := u.position.getD e.position
    employment_type := u.employment_type.getD e.employment_type
    start_date := u.start_date.getD e.start_date
    end_date := u.end_date.getD e.end_date
    is_current := u.is_current.getD e.is_current
    description := u.description.getD e.description
    responsibilities := u.responsibilities.getD e.responsibilities
    technologies := u.technologies.getD e.technologies
    display_order := u.display_order.getD e.display_order }

/-- Completeness recompute (`profile.update_completeness()` after a commit):
stores `calculate_completeness` over the profile current experience rows. -/
def DB.recomputeCompleteness (db : DB) (profile_id : String) : DB :=
  { db with
    profiles := db.profiles.map (fun p =>
      if p.id = profile_id then
        { p with completeness_score :=
            p.calculate_completeness (db.experiences.filter (fun e => e.profile_id = p.id)) }
      else p) }

/-- The `max(display_order)` query in `create_experience` (ORDER BY
`display_order` DESC, first row). -/
def maxDisplayOrder : List Experience → Option Int
  | [] => none
  | e :: rest =>
    match maxDisplayOrder rest with
    | none => some e.display_order
    | some m => some (max e.display_order m)

/-- `ExperienceService.create_experience` (`experience_service.py` lines
25-84).  `newId` models the generated ULID primary key and `now` the
creation timestamp. -/
def ExperienceService.create_experience (db : DB) (profile_id user_id : String)
    (experience_data : ExperienceCreate) (newId : String) (now : Nat) :
    Except ServiceError (DB × Experience) :=
  match db.profiles.find? (fun p => p.id = profile_id) with
  | none => .error (.authenticationError "Profile not found")
  | some profile =>
    if profile.user_id ≠ user_id then
      .error (.authenticationError "No permission to add experiences to this profile")
    else
      let max_order := maxDisplayOrder (db.experiences.filter (fun e => e.profile_id = profile_id))
      let default_order : Int := match max_order with | some m => m + 1 | none => 0
      let experience : Experience :=
        { id := newId, profile_id := profile_id
          company_name := experience_data.company_name
          company_website := experience_data.company_website
          company_size := experience_data.company_size
          industry := experience_data.industry
          company_location := experience_data.company_location
          position := experience_data.position
          employment_type := experience_data.employment_type
          start_date := experience_data.start_date
          end_date := experience_data.end_date
          is_current := experience_data.is_current
          description := experience_data.description
          responsibilities := experience_data.responsibilities
          technologies := experience_data.technologies
          display_order := pyIntOr experience_data.display_order default_order
          created_at := now }
      let db2 := { db with experiences := db.experiences ++ [experience] }
      let db3 := db2.recomputeCompleteness profile_id
      .ok (db3, experience)

/-- Request-level create: pydantic validation runs while parsing the body,
before the service (and any store mutation) is reached. -/
def createExperienceEndpoint (db : DB) (profile_id user_id : String)
    (d : ExperienceCreate) (newId : String) (now : Nat) :
    Except ServiceError (DB × Experience) := do
  let v ← validateExperienceCreate d
  ExperienceService.create_experience db profile_id user_id v newId now

/-- The `ORDER BY display_order DESC, start_date DESC` relation used by
`get_experiences_by_profile`: `a` is listed no later than `b`. -/
def expLe (a b : Experience) : Prop :=
  b.display_order < a.display_order ∨
    (a.display_order = b.display_order ∧ b.start_date ≤ a.start_date)

instance : DecidableRel expLe := fun a b => by unfold expLe; infer_instance

instance : IsTotal Experience expLe := ⟨by intro a b; unfold expLe; omega⟩

instance : IsTrans Experience expLe := ⟨by intro a b c; unfold expLe; omega⟩

/-- The `ORDER BY display_order DESC` relation used by the listing returned
from `reorder_experiences` (no secondary key there). -/
def expOrderLe (a b : Experience) : Prop :=
  b.display_order ≤ a.display_order

instance : DecidableRel expOrderLe := fun a b => by unfold expOrderLe; infer_instance

instance : IsTotal Experience expOrderLe := ⟨by intro a b; unfold expOrderLe; omega⟩

instance : IsTrans Experience expOrderLe := ⟨by intro a b c; unfold expOrderLe; omega⟩

/-- Strict descending `display_order` comparison, used to identify a listing
uniquely when the orders are pairwise distinct. -/
def expLt (a b : Experience) : Prop :=
  b.display_order < a.display_order

instance : IsAntisymm Experience expLt := ⟨by intro a b hab hba; unfold expLt at *; omega⟩

/-- `ExperienceService.get_experiences_by_profile` (`experience_service.py`
lines 98-126): silently empty on a missing profile, an authentication error
when the visibility policy denies the viewer, otherwise the profile rows
ordered by `display_order` descending then `start_date` descending. -/
def ExperienceService.get_experiences_by_profile (db : DB) (profile_id : String)
    (user_id : Option String) : Except ServiceError (List Experience) :=
  match db.profiles.find? (fun p => p.id = profile_id) with
  | none => .ok []
  | some profile =>
    if !(profile.can_view user_id) then
      .error (.authenticationError "No permission to view this profile")
    else
      .ok (List.insertionSort expLe (db.experiences.filter (fun e => e.profile_id = profile_id)))

/-- `ExperienceService.update_experience` (`experience_service.py` lines
128-167): lookup, ownership walk through the parent profile, `setattr` of the
set patch fields, completeness recompute. -/
def ExperienceService.update_experience (db : DB) (experience_id user_id : String)
    (experience_data : ExperienceUpdate) : Except ServiceError (DB × Experience) :=
  match db.experiences.find? (fun e => e.id = experience_id) with
  | none => .error (.experienceNotFoundError "Experience not found")
  | some experience =>
    match db.profiles.find? (fun p => p.id = experience.profile_id) with
    | none => .error (.authenticationError "No permission to update this experience")
    | some profile =>
      if profile.user_id ≠ user_id then
        .error (.authenticationError "No permission to update this experience")
      else
        let updated := applyExperienceUpdate experience experience_data
        let db2 := { db with
          experiences := db.experiences.map
            (fun (e : Experience) => if e.id = experience_id then updated else e) }
        let db3 := db2.recomputeCompleteness experience.profile_id
        .ok (db3, updated)

/-- Request-level update: pydantic validation of the patch body runs before
the service. -/
def updateExperienceEndpoint (db : DB) (experience_id user_id : String)
    (u : ExperienceUpdate) : Except ServiceError (DB × Experience) := do
  let v ← validateExperienceUpdate u
  ExperienceService.update_experience db experience_id user_id v

/-- The assignment loop of `reorder_experiences`: `for index, experience_id
in enumerate(experience_ids)`, setting `display_order = len(experience_ids) -
index` on the row when the id belongs to the profile (the id map is built
from the profile rows only). -/
def applyReorderExperiences (profile_id : String) (total : Nat) :
    List String → Nat → List Experience → List Experience
  | [], _, exps => exps
  | eid :: rest, index, exps =>
    applyReorderExperiences profile_id total rest (index + 1)
      (exps.map (fun e =>
        if e.profile_id = profile_id ∧ e.id = eid then
          { e with display_order := (total : Int) - (index : Int) }
        else e))

/-- `ExperienceService.reorder_experiences` (`experience_service.py` lines
201-244). -/
def ExperienceService.reorder_experiences (db : DB) (profile_id user_id : String)
    (experience_ids : List String) : Except ServiceError (DB × List Experience) :=
  match db.profiles.find? (fun p => p.id = profile_id) with
  | none => .error (.authenticationError "No permission to reorder experiences for this profile")
  | some profile =>
    if profile.user_id ≠ user_id then
      .error (.authenticationError "No permission to reorder experiences for this profile")
    else
      let db2 := { db with
        experiences :=
          applyReorderExperiences profile_id experience_ids.length experience_ids 0 db.experiences }
      .ok (db2,
        List.insertionSort expOrderLe (db2.experiences.filter (fun e => e.profile_id = profile_id)))

/-- The `ORDER BY display_order ASC, created_at DESC` relation used by
`get_profile_projects`. -/
def projLe (a b : Project) : Prop :=
  a.display_order < b.display_order ∨
    (a.display_order = b.display_order ∧ b.created_at ≤ a.created_at)

instance : DecidableRel projLe := fun a b => by unfold projLe; infer_instance

instance : IsTotal Project projLe := ⟨by intro a b; unfold projLe; omega⟩

instance : IsTrans Project projLe := ⟨by intro a b c; unfold projLe; omega⟩

/-- Strict ascending `display_order` comparison on projects. -/
def projLt (a b : Project) : Prop :=
  a.display_order < b.display_order

instance : IsAntisymm Project projLt := ⟨by intro a b hab hba; unfold projLt at *; omega⟩

/-- `ProjectService.get_profile_projects` (`project_service.py` lines 65-72):
no visibility check, ordered by `display_order` ascending then `created_at`
descending. -/
def ProjectService.get_profile_projects (db : DB) (profile_id : String) : List Project :=
  List.insertionSort projLe (db.projects.filter (fun p => p.profile_id = profile_id))

/-- The assignment loop of `reorder_projects`: `for index, project_id in
enumerate(project_ids)`, the row is fetched globally by primary key and
updated to `display_order = index` only when it belongs to the profile. -/
def applyReorderProjects (profile_id : String) :
    List String → Nat → List Project → List Project
  | [], _, projs => projs
  | pid :: rest, index, projs =>
    applyReorderProjects profile_id rest (index + 1)
      (projs.map (fun pr =>
        if pr.profile_id = profile_id ∧ pr.id = pid then
          { pr with display_order := (index : Int) }
        else pr))

/-- `ProjectService.reorder_projects` (`project_service.py` lines 111-128). -/
def ProjectService.reorder_projects (db : DB) (profile_id user_id : String)
    (project_ids : List String) : Except ServiceError (DB × List Project) :=
  match db.profiles.find? (fun p => p.id = profile_id) with
  | none => .error (.projectNotFoundError "Profile not found or access denied")
  | some profile =>
    if profile.user_id ≠ user_id then
      .error (.projectNotFoundError "Profile not found or access denied")
    else
      let db2 := { db with projects := applyReorderProjects profile_id project_ids 0 db.projects }
      .ok (db2, ProjectService.get_profile_projects db2 profile_id)

/-- `re.sub(r"\s+", "-", s)` on an already stripped character list: a run of
whitespace becomes a single hyphen.  The flag records a pending run. -/
def collapseWs : List Char → Bool → List Char
  | [], _ => []
  | c :: rest, pend =>
    if pyIsSpace c then collapseWs rest true
    else if pend then '-' :: c :: collapseWs rest false
    else c :: collapseWs rest false

/-- The name-to-slug computation of `Profile.generate_slug` lines 68-72:
lowercase, drop characters outside `[a-zA-Z0-9\s-]`, strip, collapse
whitespace runs to hyphens. -/
def slugify (name : String) : String :=
  let lowered := name.data.map Char.toLower
  let kept := lowered.filter (fun c => c.isAlphanum || pyIsSpace c || c = '-')
  let stripped := ((kept.dropWhile pyIsSpace).reverse.dropWhile pyIsSpace).reverse
  String.mk (collapseWs stripped false)

/-- `Profile.generate_slug` (`app/models/profile.py` lines 63-78).  The owner
name is passed as `user_name` (`None` when `self.user` is not loaded or has
no name); `suffix` models the 6-hex-character `secrets.token_hex(3)` value.
When the name is unavailable the method returns the lowercased profile id
without reaching the suffix-appending code. -/
def Profile.generate_slug (p : Profile) (user_name : Option String) (suffix : String) : String :=
  match user_name with
  | none => pyLower p.id
  | some n => if n = "" then pyLower p.id else slugify n ++ "-" ++ suffix

/-- The `while` collision loop of `create_profile` lines 89-94, candidates
`base-1`, `base-2`, ...; the fuel bound `taken.length + 1` is enough because
the candidates are pairwise distinct. -/
def uniquifySlugAux (taken : List String) (base : String) : Nat → Nat → String
  | _, 0 => base
  | counter, fuel + 1 =>
    let candidate := base ++ "-" ++ toString counter
    if !(taken.contains candidate) then candidate
    else uniquifySlugAux taken base (counter + 1) fuel

/-- Slug uniqueness re-check after generation (`create_profile` lines
89-94). -/
def uniquifySlug (taken : List String) (base : String) : String :=
  if !(taken.contains base) then base else uniquifySlugAux taken base 1 (taken.length + 1)

/-- The slug portion of `ProfileService.create_profile` (`profile_service.py`
lines 83-94): take the explicit slug when supplied, otherwise
`generate_slug`, then run the collision loop against the stored slugs. -/
def ProfileService.create_profile_slug (db : DB) (p : Profile) (explicit_slug : Option String)
    (user_name : Option String) (suffix : String) : String :=
  let base :=
    match explicit_slug with
    | none => p.generate_slug user_name suffix
    | some s => s
  uniquifySlug (db.profiles.filterMap (fun q => q.slug)) base

/-- The completeness formula exactly as the specification words it (headline
present and non-empty, summary present with raw length over 100): a second
definition written from the claim, to compare with the code model
`Profile.calculate_completeness`. -/
def claimed_completeness (p : Profile) (experiences : List Experience) : Int :=
  min
    ((if (match p.headline with | some h => decide (h ≠ "") | none => false) then (10 : Int) else 0)
      + (if (match p.summary with | some s => decide (s.length > 100) | none => false) then 20 else 0)
      + (min (experiences.length * 10) 30 : Nat))
    100

/-- A public profile sharing the sample fields. -/
def publicProfile : Profile := { sampleProfile with visibility := "PUBLIC" }

/-- Helper: stripping cannot turn the empty string non-empty. -/
theorem pyStrip_ne_empty_imp {h : String} (H : pyStrip h ≠ "") : h ≠ "" := by
  intro e
  exact H (by rw [e]; rfl)

/-- C1: `can_view` returns true on a PUBLIC profile for every viewer
(including the absent viewer); on a PRIVATE or FRIENDS profile it returns
true exactly when the viewer id equals the profile owner id, so a PRIVATE
profile is view-denied to every non-owner viewer including the absent one. -/
theorem can_view_visibility_policy (p : Profile) (viewer : Option String) :
    (p.visibility = "PUBLIC" → p.can_view viewer = true) ∧
    ((p.visibility = "PRIVATE" ∨ p.visibility = "FRIENDS") →
      (p.can_view viewer = true ↔ viewer = some p.user_id)) := by
  constructor
  · intro h
    simp [Profile.can_view, h]
  · rintro (h | h) <;> simp [Profile.can_view, h]

/-- Witness for C1 at concrete profiles: a PUBLIC profile is visible to the
absent viewer, a PRIVATE profile is visible to the absent viewer only if
`none = some owner`, which is absurd. -/
theorem can_view_visibility_policy_witness :
    Profile.can_view publicProfile none = true ∧
    (Profile.can_view sampleProfile none = true ↔ none = some "u1") := by
  exact ⟨(can_view_visibility_policy publicProfile none).1 rfl,
    (can_view_visibility_policy sampleProfile none).2 (Or.inl rfl)⟩

/-- C10: listing experiences for a `profile_id` with no stored profile
returns the empty list without error, for every viewer. -/
theorem get_experiences_missing_profile_empty (db : DB) (profile_id : String)
    (viewer : Option String)
    (h : db.profiles.find? (fun p => p.id = profile_id) = none) :
    ExperienceService.get_experiences_by_profile db profile_id viewer = .ok [] := by
  unfold ExperienceService.get_experiences_by_profile
  rw [h]

/-- Witness for C10: a store holding only profile "P1" has no row for "P9",
and listing experiences of "P9" yields the empty list. -/
theorem get_experiences_missing_profile_empty_witness :
    (DB.profiles ⟨[sampleProfile], [sampleExperience], []⟩).find? (fun p => p.id = "P9") = none ∧
    ExperienceService.get_experiences_by_profile ⟨[sampleProfile], [sampleExperience], []⟩ "P9" none
      = .ok [] := by
  exact ⟨by decide,
    get_experiences_missing_profile_empty ⟨[sampleProfile], [sampleExperience], []⟩ "P9" none
      (by decide)⟩

/-- A 150-character summary consisting of 149 spaces and one letter. -/
def paddedSummary : String := String.mk (List.replicate 149 ' ' ++ ['a'])

/-- A 150-character summary of plain letters. -/
def plainSummary : String := String.mk (List.replicate 150 'a')

/-- Profile with headline "X" and the whitespace-padded 150-character
summary. -/
def c3Profile : Profile :=
  { sampleProfile with headline := some "X", summary := some paddedSummary }

/-- Four experiences of profile "P1". -/
def c3Experiences : List Experience :=
  [ sampleExperience, { sampleExperience with id := "E2" },
    { sampleExperience with id := "E3" }, { sampleExperience with id := "E4" } ]


set_option maxRecDepth 4096 in
/-- C3 counterexample: for a profile with headline "X", a 150-character
summary and 4 experiences the claim formula (raw length > 100 gives +20)
computes 10 + 20 + 30 = 60, but the code strips the summary before measuring
it, and this summary is whitespace-padded so the code scores 10 + 0 + 30 =
40. -/
theorem calculate_completeness_counterexample :
    paddedSummary.length = 150 ∧
    Profile.calculate_completeness c3Profile c3Experiences = 40 ∧
    claimed_completeness c3Profile c3Experiences = 60 ∧
    Profile.calculate_completeness c3Profile c3Experiences ≠
      claimed_completeness c3Profile c3Experiences := by
  refine ⟨by decide, by decide, by decide, by decide⟩

set_option maxRecDepth 4096 in
/-- C3 amended: the completeness score is the pure deterministic function
adding 10 for a headline that is non-empty after stripping whitespace, 20 for
a summary whose stripped length exceeds 100, and 10 per experience capped at
30, the total capped at 100; the three claimed examples hold with non-padded
text (headline only scores 10, headline plus 150-character summary plus 4
experiences scores 60, empty profile scores 0). -/
theorem calculate_completeness_amended :
    (∀ (p : Profile) (exps : List Experience),
      Profile.calculate_completeness p exps =
        min
          ((if (match p.headline with | some h => decide (pyStrip h ≠ "") | none => false)
              then (10 : Int) else 0)
            + (if (match p.summary with
                   | some s => decide ((pyStrip s).length > 100)
                   | none => false)
              then (20 : Int) else 0)
            + ((min (exps.length * 10) 30 : Nat) : Int))
          100) ∧
    Profile.calculate_completeness { sampleProfile with headline := some "X" } [] = 10 ∧
    Profile.calculate_completeness
      { sampleProfile with headline := some "X", summary := some plainSummary } c3Experiences = 60 ∧
    Profile.calculate_completeness sampleProfile [] = 0 := by
  refine ⟨?_, by decide, by decide, by decide⟩
  intro p exps
  unfold Profile.calculate_completeness
  rcases hp : p.headline with _ | h <;> rcases hs : p.summary with _ | s
  · simp [hp, hs]
  · simp only [hp, hs]
    by_cases hcs : pyStrip s = ""
    · simp [hcs]
    · simp [hcs, pyStrip_ne_empty_imp hcs]
  · simp only [hp, hs]
    by_cases hch : pyStrip h = ""
    · simp [hch]
    · simp [hch, pyStrip_ne_empty_imp hch]
  · simp only [hp, hs]
    by_cases hch : pyStrip h = "" <;> by_cases hcs : pyStrip s = ""
    · simp [hch, hcs]
    · simp [hch, hcs, pyStrip_ne_empty_imp hcs]
    · simp [hch, hcs, pyStrip_ne_empty_imp hch]
    · simp [hch, hcs, pyStrip_ne_empty_imp hch, pyStrip_ne_empty_imp hcs]
      by_cases hls : (pyStrip s).length > 100 <;> simp [hls]

/-- C4 counterexample: calling `add_technology` twice with the identical
string " X " leaves two occurrences of the stored value, because the
membership check tests the raw string while the appended element is the
stripped string. -/
theorem add_technology_twice_counterexample :
    ((sampleExperience.add_technology " X ").add_technology " X ").technologies = ["X", "X"] ∧
    ((sampleExperience.add_technology " X ").add_technology " X ").technologies.count "X" ≠ 1 := by
  refine ⟨by decide, by decide⟩

/-- C4 amended: `add_technology` and `add_responsibility` are no-ops when the
stripped value is empty or the raw value already occurs in the list
(case-sensitive exact match); for a value with no surrounding whitespace
(`pyStrip t = t`) that is not yet present, adding twice leaves exactly one
occurrence; a value with surrounding whitespace escapes the membership check
(see the counterexample).  `remove_technology` and `remove_responsibility`
on an absent value leave the experience unchanged and do not error. -/
theorem add_remove_technology_amended :
    (∀ (e : Experience) (t : String), pyStrip t = "" → e.add_technology t = e) ∧
    (∀ (e : Experience) (t : String), t ∈ e.technologies → e.add_technology t = e) ∧
    (∀ (e : Experience) (t : String), pyStrip t = t → t ≠ "" → t ∉ e.technologies →
      ((e.add_technology t).add_technology t).technologies.count t = 1) ∧
    (∀ (e : Experience) (t : String), t ∉ e.technologies → e.remove_technology t = e) ∧
    (∀ (e : Experience) (r : String), pyStrip r = "" → e.add_responsibility r = e) ∧
    (∀ (e : Experience) (r : String), r ∈ e.responsibilities → e.add_responsibility r = e) ∧
    (∀ (e : Experience) (r : String), pyStrip r = r → r ≠ "" → r ∉ e.responsibilities →
      ((e.add_responsibility r).add_responsibility r).responsibilities.count r = 1) ∧
    (∀ (e : Experience) (r : String), r ∉ e.responsibilities → e.remove_responsibility r = e) := by
  have addT_mem : ∀ (e : Experience) (t : String), t ∈ e.technologies → e.add_technology t = e := by
    intro e t h
    unfold Experience.add_technology
    simp
    intro _ hn
    exact absurd h hn
  have addR_mem : ∀ (e : Experience) (r : String), r ∈ e.responsibilities →
      e.add_responsibility r = e := by
    intro e r h
    unfold Experience.add_responsibility
    simp
    intro _ hn
    exact absurd h hn
  refine ⟨?_, addT_mem, ?_, ?_, ?_, addR_mem, ?_, ?_⟩
  · intro e t h
    unfold Experience.add_technology
    simp [h]
  · intro e t hstrip hne hnot
    have h1 : (e.add_technology t).technologies = e.technologies ++ [t] := by
      unfold Experience.add_technology
      simp [hstrip, hne, hnot]
    have hmem : t ∈ (e.add_technology t).technologies := by
      rw [h1]; simp
    rw [addT_mem _ _ hmem, h1]
    simp [List.count_append, List.count_eq_zero.mpr hnot]
  · intro e t h
    unfold Experience.remove_technology
    simp
    intro _ hm
    exact absurd hm h
  · intro e r h
    unfold Experience.add_responsibility
    simp [h]
  · intro e r hstrip hne hnot
    have h1 : (e.add_responsibility r).responsibilities = e.responsibilities ++ [r] := by
      unfold Experience.add_responsibility
      simp [hstrip, hne, hnot]
    have hmem : r ∈ (e.add_responsibility r).responsibilities := by
      rw [h1]; simp
    rw [addR_mem _ _ hmem, h1]
    simp [List.count_append, List.count_eq_zero.mpr hnot]
  · intro e r h
    unfold Experience.remove_responsibility
    simp
    intro _ hm
    exact absurd hm h

/-- Witness for C4 amended at concrete values: adding "Lean" twice to an
experience with no technologies yields one occurrence, and removing the
absent "SQL" is the identity; likewise for responsibilities. -/
theorem add_remove_technology_amended_witness :
    ((sampleExperience.add_technology "Lean").add_technology "Lean").technologies.count "Lean" = 1 ∧
    sampleExperience.remove_technology "SQL" = sampleExperience ∧
    ((sampleExperience.add_responsibility "Ship").add_responsibility
      "Ship").responsibilities.count "Ship" = 1 ∧
    sampleExperience.remove_responsibility "Plan" = sampleExperience := by
  exact ⟨add_remove_technology_amended.2.2.1 sampleExperience "Lean" (by decide) (by decide)
      (by decide),
    add_remove_technology_amended.2.2.2.1 sampleExperience "SQL" (by decide),
    add_remove_technology_amended.2.2.2.2.2.2.1 sampleExperience "Ship" (by decide) (by decide)
      (by decide),
    add_remove_technology_amended.2.2.2.2.2.2.2 sampleExperience "Plan" (by decide)⟩

/-- Every error produced by `checkCompanySize` is a `validationFailure`. -/
theorem checkCompanySize_error (v : Option String) (err : ServiceError)
    (h : checkCompanySize v = .error err) : ∃ m, err = .validationFailure m := by
  unfold checkCompanySize at h
  cases v with
  | none => simp at h
  | some s =>
    by_cases ha : s ∈ allowedCompanySizes <;> simp [ha] at h
    exact ⟨_, h.symm⟩

/-- Every error produced by `checkEmploymentType` is a `validationFailure`. -/
theorem checkEmploymentType_error (v : Option String) (err : ServiceError)
    (h : checkEmploymentType v = .error err) : ∃ m, err = .validationFailure m := by
  unfold checkEmploymentType at h
  cases v with
  | none => simp at h
  | some s =>
    by_cases ha : s ∈ allowedEmploymentTypes <;> simp [ha] at h
    exact ⟨_, h.symm⟩

/-- Every error produced by `checkEndDate` is a `validationFailure`. -/
theorem checkEndDate_error (sd : Nat) (ed : Option Nat) (err : ServiceError)
    (h : checkEndDate sd ed = .error err) : ∃ m, err = .validationFailure m := by
  unfold checkEndDate at h
  cases ed with
  | none => simp at h
  | some e =>
    by_cases ha : e ≤ sd <;> simp [ha] at h
    exact ⟨_, h.symm⟩

/-- `checkIsCurrent` rejects a current position with an end date. -/
theorem checkIsCurrent_rejects (b : Bool) (ed : Option Nat) (hb : b = true)
    (he : ed.isSome = true) :
    checkIsCurrent b ed = .error (.validationFailure "Current position cannot have an end date") := by
  unfold checkIsCurrent
  simp [hb, he]

/-- A successful `validateExperienceCreate` returns the input unchanged and
certifies that all four field validators passed. -/
theorem validateExperienceCreate_ok (d v : ExperienceCreate)
    (h : validateExperienceCreate d = .ok v) :
    v = d ∧ checkIsCurrent d.is_current d.end_date = .ok () := by
  unfold validateExperienceCreate at h
  cases h1 : checkCompanySize d.company_size <;> rw [h1] at h <;>
    simp [Bind.bind, Except.bind] at h
  cases h2 : checkEmploymentType d.employment_type <;> rw [h2] at h <;>
    simp [Bind.bind, Except.bind] at h
  cases h3 : checkEndDate d.start_date d.end_date <;> rw [h3] at h <;>
    simp [Bind.bind, Except.bind] at h
  cases h4 : checkIsCurrent d.is_current d.end_date <;> rw [h4] at h <;>
    simp [Bind.bind, Except.bind, pure, Except.pure] at h
  exact ⟨h.symm, rfl⟩

/-- A store with one PRIVATE profile "P1" of user "u1" and its experience
"E1". -/
def oneExpDB : DB := ⟨[sampleProfile], [sampleExperience], []⟩

/-- An update patch setting `is_current := true` and `end_date := 200`
simultaneously. -/
def currentWithEndPatch : ExperienceUpdate :=
  { is_current := some true, end_date := some (some 200) }

/-- C2 counterexample: the update schema has no date or current-position
validator, so an owner update setting both `is_current := true` and
`end_date := 200` succeeds and the stored experience then violates the
invariant. -/
theorem experience_update_invariant_counterexample :
    ((updateExperienceEndpoint oneExpDB "E1" "u1" currentWithEndPatch).toOption.map
      (fun r => (r.2.is_current, r.2.end_date))) = some (true, some 200) ∧
    ((updateExperienceEndpoint oneExpDB "E1" "u1" currentWithEndPatch).toOption.map
      (fun r => r.1.experiences.map (fun e => (e.is_current, e.end_date))))
      = some [(true, some 200)] := by
  refine ⟨by decide, by decide⟩

/-- C2 amended: a create input with `is_current = true` and a present
`end_date` is rejected by schema validation with a `ValidationFailure`
before any store mutation, and a successfully created experience never has
both; the update path does not enforce the invariant (see the
counterexample). -/
theorem experience_create_invariant_amended :
    (∀ (db : DB) (pid uid : String) (d : ExperienceCreate) (nid : String) (now : Nat)
      (db2 : DB) (e : Experience),
      createExperienceEndpoint db pid uid d nid now = .ok (db2, e) →
      ¬(e.is_current = true ∧ e.end_date.isSome = true)) ∧
    (∀ (db : DB) (pid uid : String) (d : ExperienceCreate) (nid : String) (now : Nat),
      d.is_current = true → d.end_date.isSome = true →
      ∃ msg, createExperienceEndpoint db pid uid d nid now
        = .error (.validationFailure msg)) := by
  constructor
  · intro db pid uid d nid now db2 e h
    unfold createExperienceEndpoint at h
    cases hv : validateExperienceCreate d with
    | error err => rw [hv] at h; simp [Bind.bind, Except.bind] at h
    | ok v =>
      rw [hv] at h
      simp [Bind.bind, Except.bind] at h
      obtain ⟨rfl, hcur⟩ := validateExperienceCreate_ok d v hv
      unfold ExperienceService.create_experience at h
      cases hf : db.profiles.find? (fun p => p.id = pid) with
      | none => rw [hf] at h; simp at h
      | some profile =>
        rw [hf] at h
        by_cases hown : profile.user_id ≠ uid
        · simp [hown] at h
        · simp [hown] at h
          obtain ⟨-, he⟩ := h
          rintro ⟨hc1, hc2⟩
          rw [← he] at hc1 hc2
          simp at hc1 hc2
          unfold checkIsCurrent at hcur
          simp [hc1, hc2] at hcur
  · intro db pid uid d nid now hcur hsome
    unfold createExperienceEndpoint validateExperienceCreate
    cases h1 : checkCompanySize d.company_size with
    | error e1 =>
      obtain ⟨m, rfl⟩ := checkCompanySize_error _ _ h1
      exact ⟨m, by simp [Bind.bind, Except.bind]⟩
    | ok u1 =>
      cases h2 : checkEmploymentType d.employment_type with
      | error e2 =>
        obtain ⟨m, rfl⟩ := checkEmploymentType_error _ _ h2
        exact ⟨m, by simp [Bind.bind, Except.bind, h2]⟩
      | ok u2 =>
        cases h3 : checkEndDate d.start_date d.end_date with
        | error e3 =>
          obtain ⟨m, rfl⟩ := checkEndDate_error _ _ _ h3
          exact ⟨m, by simp [Bind.bind, Except.bind, h2, h3]⟩
        | ok u3 =>
          refine ⟨"Current position cannot have an end date", ?_⟩
          simp [Bind.bind, Except.bind, h2, h3, checkIsCurrent_rejects d.is_current d.end_date hcur hsome]

/-- A store with the sample profile and no experiences. -/
def emptyProfileDB : DB := ⟨[sampleProfile], [], []⟩

/-- A valid create payload for a current position (no end date). -/
def currentCreate : ExperienceCreate :=
  { company_name := "Acme", company_website := none, company_size := none, industry := none,
    company_location := none, position := "Dev", employment_type := none, start_date := 100,
    end_date := none, is_current := true, description := none, responsibilities := [],
    technologies := [], display_order := 0 }

/-- A create payload violating the invariant: current position with an end
date. -/
def badCreate : ExperienceCreate := { currentCreate with end_date := some 200 }

/-- The experience record produced by creating `currentCreate` in
`emptyProfileDB`. -/
def currentCreatedExp : Experience :=
  { sampleExperience with id := "E9", is_current := true, created_at := 5 }

/-- The store produced by that create (completeness recomputed to 10). -/
def currentCreatedDB : DB :=
  ⟨[{ sampleProfile with completeness_score := 10 }], [currentCreatedExp], []⟩

/-- Witness for C2 amended: creating a current position without an end date
succeeds and satisfies the invariant; the same payload with an end date is
rejected with a ValidationFailure. -/
theorem experience_create_invariant_amended_witness :
    ¬(currentCreatedExp.is_current = true ∧ currentCreatedExp.end_date.isSome = true) ∧
    (∃ msg, createExperienceEndpoint emptyProfileDB "P1" "u1" badCreate "E9" 5
      = .error (.validationFailure msg)) := by
  exact ⟨experience_create_invariant_amended.1 emptyProfileDB "P1" "u1" currentCreate "E9" 5
      currentCreatedDB currentCreatedExp (by rfl),
    experience_create_invariant_amended.2 emptyProfileDB "P1" "u1" badCreate "E9" 5
      (by decide) (by decide)⟩

/-- A store whose single experience of profile "P1" has display order 5. -/
def fiveOrderDB : DB := ⟨[sampleProfile], [{ sampleExperience with display_order := 5 }], []⟩

/-- A create payload carrying an explicit `display_order = 0`. -/
def zeroOrderCreate : ExperienceCreate := { currentCreate with is_current := false }

/-- C7 counterexample: with an existing experience of order 5, a create
carrying an explicit `display_order = 0` produces order 6 (the computed
default), not 0: `experience_data.display_order or display_order` treats the
explicit 0 as falsy. -/
theorem create_display_order_zero_counterexample :
    ((ExperienceService.create_experience fiveOrderDB "P1" "u1" zeroOrderCreate "E2" 7).toOption.map
      (fun r => r.2.display_order)) = some 6 ∧
    ((ExperienceService.create_experience fiveOrderDB "P1" "u1" zeroOrderCreate "E2" 7).toOption.map
      (fun r => r.2.display_order)) ≠ some 0 := by
  refine ⟨by decide, by decide⟩

/-- C7 amended: on create, a `display_order` of 0 in the input (whether
omitted, since 0 is the schema default, or explicitly supplied) yields the
computed default, current maximum + 1, or 0 when the profile has no
experiences; a nonzero explicit `display_order` overrides the default. -/
theorem create_display_order_amended :
    (∀ (db : DB) (pid uid : String) (d : ExperienceCreate) (nid : String) (now : Nat)
        (db2 : DB) (e : Experience),
      ExperienceService.create_experience db pid uid d nid now = .ok (db2, e) →
      d.display_order = 0 →
      e.display_order =
        (match maxDisplayOrder (db.experiences.filter (fun x => x.profile_id = pid)) with
         | some m => m + 1
         | none => 0)) ∧
    (∀ (db : DB) (pid uid : String) (d : ExperienceCreate) (nid : String) (now : Nat)
        (db2 : DB) (e : Experience),
      ExperienceService.create_experience db pid uid d nid now = .ok (db2, e) →
      d.display_order ≠ 0 →
      e.display_order = d.display_order) := by
  constructor
  · intro db pid uid d nid now db2 e h hd
    unfold ExperienceService.create_experience at h
    cases hf : db.profiles.find? (fun p => p.id = pid) with
    | none => rw [hf] at h; simp at h
    | some profile =>
      rw [hf] at h
      by_cases hown : profile.user_id ≠ uid
      · simp [hown] at h
      · simp [hown] at h
        obtain ⟨-, he⟩ := h
        rw [← he]
        simp [pyIntOr, hd]
  · intro db pid uid d nid now db2 e h hd
    unfold ExperienceService.create_experience at h
    cases hf : db.profiles.find? (fun p => p.id = pid) with
    | none => rw [hf] at h; simp at h
    | some profile =>
      rw [hf] at h
      by_cases hown : profile.user_id ≠ uid
      · simp [hown] at h
      · simp [hown] at h
        obtain ⟨-, he⟩ := h
        rw [← he]
        simp [pyIntOr, hd]

/-- The experience record produced by creating `zeroOrderCreate` in
`emptyProfileDB`. -/
def zeroCreatedExp : Experience := { sampleExperience with id := "E9", created_at := 5 }

/-- The store produced by that create. -/
def zeroCreatedDB : DB :=
  ⟨[{ sampleProfile with completeness_score := 10 }], [zeroCreatedExp], []⟩

/-- A create payload with an explicit nonzero `display_order = 4`. -/
def fourCreate : ExperienceCreate := { zeroOrderCreate with display_order := 4 }

/-- The experience record produced by creating `fourCreate` in
`emptyProfileDB`. -/
def fourCreatedExp : Experience := { zeroCreatedExp with display_order := 4 }

/-- The store produced by that create. -/
def fourCreatedDB : DB :=
  ⟨[{ sampleProfile with completeness_score := 10 }], [fourCreatedExp], []⟩

/-- Witness for C7 amended: creating into an empty profile with input order 0
yields order 0 (the computed default), and with explicit input order 4 yields
4. -/
theorem create_display_order_amended_witness :
    zeroCreatedExp.display_order = 0 ∧ fourCreatedExp.display_order = 4 := by
  exact ⟨create_display_order_amended.1 emptyProfileDB "P1" "u1" zeroOrderCreate "E9" 5
      zeroCreatedDB zeroCreatedExp (by rfl) (by decide),
    create_display_order_amended.2 emptyProfileDB "P1" "u1" fourCreate "E9" 5
      fourCreatedDB fourCreatedExp (by rfl) (by decide)⟩

/-- A profile whose id is "01AB", with no loaded owner name. -/
def c8Profile : Profile := { sampleProfile with id := "01AB" }

/-- C8 counterexample: when the owner name is unavailable, the auto-generated
slug is the bare lowercased profile id with no random suffix appended; with
run suffix "a1b2c3" the result "01ab" does not end in "-a1b2c3" (it is even
shorter than the suffix). -/
theorem generate_slug_fallback_counterexample :
    c8Profile.generate_slug none "a1b2c3" = "01ab" ∧
    "01ab".endsWith ("-" ++ "a1b2c3") = false ∧
    ProfileService.create_profile_slug ⟨[], [], []⟩ c8Profile none none "a1b2c3" = "01ab" := by
  refine ⟨by decide, by decide, by decide⟩

/-- C8 amended: when a slug is auto-generated from an available owner display
name the random suffix is appended (`slugify name ++ "-" ++ suffix`); in the
fallback case (owner or name unavailable, or empty name) the slug is the
profile id lowercased with no suffix; an explicitly supplied slug that does
not collide is stored verbatim, with no random suffix. -/
theorem generate_slug_amended :
    (∀ (p : Profile) (n suffix : String), n ≠ "" →
      p.generate_slug (some n) suffix = slugify n ++ "-" ++ suffix) ∧
    (∀ (p : Profile) (suffix : String), p.generate_slug none suffix = pyLower p.id) ∧
    (∀ (p : Profile) (suffix : String), p.generate_slug (some "") suffix = pyLower p.id) ∧
    (∀ (db : DB) (p : Profile) (s : String) (un : Option String) (suffix : String),
      (db.profiles.filterMap (fun q => q.slug)).contains s = false →
      ProfileService.create_profile_slug db p (some s) un suffix = s) := by
  refine ⟨?_, ?_, ?_, ?_⟩
  · intro p n suffix hn
    unfold Profile.generate_slug
    simp [hn]
  · intro p suffix
    rfl
  · intro p suffix
    rfl
  · intro db p s un suffix h
    unfold ProfileService.create_profile_slug uniquifySlug
    show (if (!(List.filterMap (fun q => q.slug) db.profiles).contains s) = true then s
      else uniquifySlugAux (List.filterMap (fun q => q.slug) db.profiles) s 1
        ((List.filterMap (fun q => q.slug) db.profiles).length + 1)) = s
    rw [h]
    simp

/-- Witness for C8 amended: the name "John Doe" produces
"john-doe-abc123", the fallback produces the lowercased id, and an explicit
non-colliding slug is kept as-is. -/
theorem generate_slug_amended_witness :
    sampleProfile.generate_slug (some "John Doe") "abc123" = slugify "John Doe" ++ "-" ++ "abc123" ∧
    slugify "John Doe" = "john-doe" ∧
    sampleProfile.generate_slug none "abc123" = pyLower sampleProfile.id ∧
    ProfileService.create_profile_slug ⟨[], [], []⟩ sampleProfile (some "my-slug") none "abc123"
      = "my-slug" := by
  exact ⟨generate_slug_amended.1 sampleProfile "John Doe" "abc123" (by decide),
    by decide,
    generate_slug_amended.2.1 sampleProfile "abc123",
    generate_slug_amended.2.2.2 ⟨[], [], []⟩ sampleProfile "my-slug" none "abc123" (by decide)⟩

/-- Characterisation of the reorder assignment loop for duplicate-free id
lists: a row of the profile whose id occurs in the list at position `j`
(counting from the loop offset `i`) receives `total - (i + j)`; every other
row is untouched. -/
theorem applyReorderExperiences_eq (pid : String) (total : Nat) (ids : List String) :
    ∀ (i : Nat) (exps : List Experience), ids.Nodup →
    applyReorderExperiences pid total ids i exps =
      exps.map (fun e =>
        if e.profile_id = pid ∧ e.id ∈ ids then
          { e with display_order := (total : Int) - ((i + List.indexOf e.id ids : Nat) : Int) }
        else e) := by
  induction ids with
  | nil =>
    intro i exps _
    simp [applyReorderExperiences]
  | cons eid rest ih =>
    intro i exps hnd
    have hnotin : eid ∉ rest := (List.nodup_cons.mp hnd).1
    have hndrest : rest.Nodup := (List.nodup_cons.mp hnd).2
    simp only [applyReorderExperiences]
    rw [ih (i + 1) _ hndrest, List.map_map]
    congr 1
    funext e
    simp only [Function.comp_apply]
    by_cases hpe : e.profile_id = pid
    · by_cases he : e.id = eid
      · simp [hpe, he, hnotin, List.indexOf_cons_self]
      · by_cases hmem : e.id ∈ rest
        · simp [hpe, he, hmem, List.indexOf_cons_ne _ (Ne.symm he)]
          omega
        · simp [hpe, he, hmem]
    · simp [hpe]

/-- The store-level effect of an authorised experience reorder, as a named
function: rows of the profile whose id occurs in the list get
`display_order = len(ids) - index`, all other rows are unchanged. -/
def reorderedExperiences (profile_id : String) (ids : List String)
    (exps : List Experience) : List Experience :=
  exps.map (fun e =>
    if e.profile_id = profile_id ∧ e.id ∈ ids then
      { e with display_order := (ids.length : Int) - (List.indexOf e.id ids : Int) }
    else e)

/-- An authorised reorder call succeeds and its effect on the experience
table is `reorderedExperiences`; the returned list is the descending-order
listing of the updated profile rows. -/
theorem reorder_experiences_ok_eq (db : DB) (P : Profile) (profile_id user_id : String)
    (ids : List String)
    (hfind : db.profiles.find? (fun p => p.id = profile_id) = some P)
    (hown : P.user_id = user_id)
    (hnd : ids.Nodup) :
    ExperienceService.reorder_experiences db profile_id user_id ids =
      .ok ({ db with experiences := reorderedExperiences profile_id ids db.experiences },
        List.insertionSort expOrderLe
          ((reorderedExperiences profile_id ids db.experiences).filter
            (fun e => e.profile_id = profile_id))) := by
  unfold ExperienceService.reorder_experiences reorderedExperiences
  rw [hfind]
  simp only [hown, ne_eq, not_true_eq_false, ite_false]
  rw [applyReorderExperiences_eq profile_id ids.length ids 0 db.experiences hnd]
  simp only [Nat.zero_add]

/-- C6: an ownership-authorised experience reorder with a duplicate-free id
list succeeds and rewrites the store so that each experience of the profile
whose id occurs at position `index` of the list gets `display_order =
len(ids) - index`; ids in the list not belonging to the profile are silently
ignored (they match no row, and the call still succeeds), and experiences of
the profile omitted from the list keep their prior `display_order`. -/
theorem reorder_experiences_assignment (db : DB) (P : Profile) (profile_id user_id : String)
    (ids : List String)
    (hfind : db.profiles.find? (fun p => p.id = profile_id) = some P)
    (hown : P.user_id = user_id)
    (hnd : ids.Nodup) :
    ∃ res, ExperienceService.reorder_experiences db profile_id user_id ids =
      .ok ({ db with experiences := reorderedExperiences profile_id ids db.experiences }, res) :=
  ⟨_, reorder_experiences_ok_eq db P profile_id user_id ids hfind hown hnd⟩

/-- Witness for C6: profile "P1" owns "E1" (order 0) and "E2" (order 7);
reordering with ["E1", "EX"] (the foreign id "EX" is ignored) gives "E1"
order 2 - 0 = 2 and leaves the omitted "E2" at 7. -/
theorem reorder_experiences_assignment_witness :
    ∃ res, ExperienceService.reorder_experiences
        ⟨[sampleProfile],
          [sampleExperience, { sampleExperience with id := "E2", display_order := 7 }], []⟩
        "P1" "u1" ["E1", "EX"] =
      .ok (⟨[sampleProfile],
        [{ sampleExperience with display_order := 2 },
         { sampleExperience with id := "E2", display_order := 7 }], []⟩, res) := by
  obtain ⟨res, h⟩ := reorder_experiences_assignment
    ⟨[sampleProfile],
      [sampleExperience, { sampleExperience with id := "E2", display_order := 7 }], []⟩
    sampleProfile "P1" "u1" ["E1", "EX"] (by decide) (by decide) (by decide)
  refine ⟨res, ?_⟩
  rw [h]
  rfl

/-- C9: for an existing profile, listing its experiences raises an
authentication error (not an empty list) whenever the visibility policy
denies the viewer, and for an allowed viewer returns exactly the profile
experiences (as a permutation of the stored rows) ordered by `display_order`
descending with ties broken by `start_date` descending. -/
theorem get_experiences_visibility (db : DB) (profile_id : String) (viewer : Option String)
    (P : Profile)
    (hfind : db.profiles.find? (fun p => p.id = profile_id) = some P) :
    (P.can_view viewer = false →
      ExperienceService.get_experiences_by_profile db profile_id viewer =
        .error (.authenticationError "No permission to view this profile")) ∧
    (P.can_view viewer = true →
      ∃ l, ExperienceService.get_experiences_by_profile db profile_id viewer = .ok l ∧
        l.Perm (db.experiences.filter (fun e => e.profile_id = profile_id)) ∧
        l.Pairwise expLe) := by
  constructor
  · intro hv
    unfold ExperienceService.get_experiences_by_profile
    rw [hfind]
    simp [hv]
  · intro hv
    unfold ExperienceService.get_experiences_by_profile
    rw [hfind]
    simp only [hv, Bool.not_true, Bool.false_eq_true, ite_false, if_false]
    exact ⟨_, rfl, List.perm_insertionSort expLe _, List.sorted_insertionSort expLe _⟩

/-- Witness for C9: the PRIVATE profile "P1" denies the absent viewer with an
authentication error, and grants its owner "u1" the sorted listing. -/
theorem get_experiences_visibility_witness :
    ExperienceService.get_experiences_by_profile oneExpDB "P1" none =
      .error (.authenticationError "No permission to view this profile") ∧
    (∃ l, ExperienceService.get_experiences_by_profile oneExpDB "P1" (some "u1") = .ok l ∧
      l.Perm (oneExpDB.experiences.filter (fun e => e.profile_id = "P1")) ∧
      l.Pairwise expLe) := by
  exact ⟨(get_experiences_visibility oneExpDB "P1" none sampleProfile (by decide)).1 (by decide),
    (get_experiences_visibility oneExpDB "P1" (some "u1") sampleProfile (by decide)).2 (by decide)⟩

/-- Characterisation of the project reorder loop for duplicate-free id lists:
a profile row whose id occurs at position `j` (from offset `i`) receives
`display_order = i + j`; every other row is untouched. -/
theorem applyReorderProjects_eq (pid : String) (ids : List String) :
    ∀ (i : Nat) (projs : List Project), ids.Nodup →
    applyReorderProjects pid ids i projs =
      projs.map (fun pr =>
        if pr.profile_id = pid ∧ pr.id ∈ ids then
          { pr with display_order := ((i + List.indexOf pr.id ids : Nat) : Int) }
        else pr) := by
  induction ids with
  | nil =>
    intro i projs _
    simp [applyReorderProjects]
  | cons pid0 rest ih =>
    intro i projs hnd
    have hnotin : pid0 ∉ rest := (List.nodup_cons.mp hnd).1
    have hndrest : rest.Nodup := (List.nodup_cons.mp hnd).2
    simp only [applyReorderProjects]
    rw [ih (i + 1) _ hndrest, List.map_map]
    congr 1
    funext pr
    simp only [Function.comp_apply]
    by_cases hpe : pr.profile_id = pid
    · by_cases he : pr.id = pid0
      · simp [hpe, he, hnotin, List.indexOf_cons_self]
      · by_cases hmem : pr.id ∈ rest
        · simp [hpe, he, hmem, List.indexOf_cons_ne _ (Ne.symm he)]
          omega
        · simp [hpe, he, hmem]
    · simp [hpe]

/-- The store-level effect of an authorised project reorder: rows of the
profile whose id occurs in the list get `display_order = index`, all other
rows unchanged. -/
def reorderedProjects (profile_id : String) (ids : List String)
    (projs : List Project) : List Project :=
  projs.map (fun pr =>
    if pr.profile_id = profile_id ∧ pr.id ∈ ids then
      { pr with display_order := (List.indexOf pr.id ids : Int) }
    else pr)

/-- An authorised project reorder succeeds with effect `reorderedProjects`,
returning the ascending-order listing of the updated store. -/
theorem reorder_projects_ok_eq (db : DB) (P : Profile) (profile_id user_id : String)
    (ids : List String)
    (hfind : db.profiles.find? (fun p => p.id = profile_id) = some P)
    (hown : P.user_id = user_id)
    (hnd : ids.Nodup) :
    ProjectService.reorder_projects db profile_id user_id ids =
      .ok ({ db with projects := reorderedProjects profile_id ids db.projects },
        ProjectService.get_profile_projects
          { db with projects := reorderedProjects profile_id ids db.projects } profile_id) := by
  unfold ProjectService.reorder_projects reorderedProjects
  rw [hfind]
  simp only [hown, ne_eq, not_true_eq_false, ite_false]
  rw [applyReorderProjects_eq profile_id ids 0 db.projects hnd]
  simp only [Nat.zero_add]

/-- The owner can always view their own profile, whatever its visibility. -/
theorem owner_can_view (p : Profile) : p.can_view (some p.user_id) = true := by
  by_cases h1 : p.visibility = "PUBLIC" <;> by_cases h2 : p.visibility = "PRIVATE" <;>
    simp [Profile.can_view, h1, h2]

/-- A descending-sorted experience list with pairwise distinct display orders
is strictly descending. -/
theorem pairwise_expLt_of_expLe (l : List Experience) (hle : l.Pairwise expLe)
    (hne : l.Pairwise (fun a b => a.display_order ≠ b.display_order)) :
    l.Pairwise expLt := by
  refine (hle.and hne).imp ?_
  rintro a b ⟨hab, hneq⟩
  rcases hab with h | ⟨heq, _⟩
  · exact h
  · exact absurd heq hneq

/-- An ascending-sorted project list with pairwise distinct display orders is
strictly ascending. -/
theorem pairwise_projLt_of_projLe (l : List Project) (hle : l.Pairwise projLe)
    (hne : l.Pairwise (fun a b => a.display_order ≠ b.display_order)) :
    l.Pairwise projLt := by
  refine (hle.and hne).imp ?_
  rintro a b ⟨hab, hneq⟩
  rcases hab with h | ⟨heq, _⟩
  · exact h
  · exact absurd heq hneq

/-- Experience half of the reorder-direction property: after an authorised
reorder with id list `[C, A, B]`, the visibility-checked listing returns ids
in exactly that order. -/
theorem reorder_then_list_experiences (db : DB) (P : Profile) (uid : String)
    (A B C : Experience)
    (hfind : db.profiles.find? (fun p => p.id = P.id) = some P)
    (hown : P.user_id = uid)
    (hperm : (db.experiences.filter (fun e => e.profile_id = P.id)).Perm [A, B, C])
    (hAB : A.id ≠ B.id) (hAC : A.id ≠ C.id) (hBC : B.id ≠ C.id) :
    ∃ db2 res l,
      ExperienceService.reorder_experiences db P.id uid [C.id, A.id, B.id] = .ok (db2, res) ∧
      ExperienceService.get_experiences_by_profile db2 P.id (some uid) = .ok l ∧
      l.map (fun e => e.id) = [C.id, A.id, B.id] := by
  have hnd : ([C.id, A.id, B.id] : List String).Nodup := by
    simp [List.nodup_cons]
    exact ⟨⟨Ne.symm hAC, Ne.symm hBC⟩, hAB⟩
  have hAf : A ∈ db.experiences.filter (fun e => e.profile_id = P.id) :=
    hperm.mem_iff.mpr (by simp)
  have hBf : B ∈ db.experiences.filter (fun e => e.profile_id = P.id) :=
    hperm.mem_iff.mpr (by simp)
  have hCf : C ∈ db.experiences.filter (fun e => e.profile_id = P.id) :=
    hperm.mem_iff.mpr (by simp)
  have hApid : A.profile_id = P.id := by simpa using List.of_mem_filter hAf
  have hBpid : B.profile_id = P.id := by simpa using List.of_mem_filter hBf
  have hCpid : C.profile_id = P.id := by simpa using List.of_mem_filter hCf
  have hre := reorder_experiences_ok_eq db P P.id uid [C.id, A.id, B.id] hfind hown hnd
  have iC : List.indexOf C.id [C.id, A.id, B.id] = 0 := List.indexOf_cons_self _ _
  have iA : List.indexOf A.id [C.id, A.id, B.id] = 1 := by
    rw [List.indexOf_cons_ne _ (Ne.symm hAC), List.indexOf_cons_self]
  have iB : List.indexOf B.id [C.id, A.id, B.id] = 2 := by
    rw [List.indexOf_cons_ne _ (Ne.symm hBC), List.indexOf_cons_ne _ hAB,
      List.indexOf_cons_self]
  have h3 : reorderedExperiences P.id [C.id, A.id, B.id] [A, B, C] =
      [{ A with display_order := 2 }, { B with display_order := 1 },
       { C with display_order := 3 }] := by
    unfold reorderedExperiences
    simp only [List.map_cons, List.map_nil]
    rw [if_pos ⟨hApid, by simp⟩, if_pos ⟨hBpid, by simp⟩, if_pos ⟨hCpid, by simp⟩]
    rw [iA, iB, iC]
    norm_num
  have hfil : (reorderedExperiences P.id [C.id, A.id, B.id] db.experiences).filter
      (fun e => e.profile_id = P.id) =
      reorderedExperiences P.id [C.id, A.id, B.id]
        (db.experiences.filter (fun e => e.profile_id = P.id)) := by
    unfold reorderedExperiences
    rw [List.filter_map]
    congr 1
    apply List.filter_congr
    intro e _
    simp only [Function.comp_apply]
    by_cases hm : e.profile_id = P.id ∧ e.id ∈ [C.id, A.id, B.id]
    · rw [if_pos hm]
    · rw [if_neg hm]
  have hperm2 : (reorderedExperiences P.id [C.id, A.id, B.id]
      (db.experiences.filter (fun e => e.profile_id = P.id))).Perm
      [{ A with display_order := 2 }, { B with display_order := 1 },
       { C with display_order := 3 }] := by
    have hp2 := hperm.map (fun e =>
      if e.profile_id = P.id ∧ e.id ∈ [C.id, A.id, B.id] then
        { e with display_order := (([C.id, A.id, B.id] : List String).length : Int)
            - (List.indexOf e.id [C.id, A.id, B.id] : Int) }
      else e)
    rw [show (List.map (fun e =>
        if e.profile_id = P.id ∧ e.id ∈ [C.id, A.id, B.id] then
          { e with display_order := (([C.id, A.id, B.id] : List String).length : Int)
              - (List.indexOf e.id [C.id, A.id, B.id] : Int) }
        else e) [A, B, C]) =
      reorderedExperiences P.id [C.id, A.id, B.id] [A, B, C] from rfl] at hp2
    rw [h3] at hp2
    exact hp2
  refine ⟨_, _, List.insertionSort expLe
      ((reorderedExperiences P.id [C.id, A.id, B.id] db.experiences).filter
        (fun e => e.profile_id = P.id)), hre, ?_, ?_⟩
  · unfold ExperienceService.get_experiences_by_profile
    simp only [hfind]
    rw [← hown, owner_can_view]
    simp
  · have hpl : (List.insertionSort expLe
        ((reorderedExperiences P.id [C.id, A.id, B.id] db.experiences).filter
          (fun e => e.profile_id = P.id))).Perm
        [{ C with display_order := 3 }, { A with display_order := 2 },
         { B with display_order := 1 }] := by
      refine (List.perm_insertionSort expLe _).trans ?_
      rw [hfil]
      refine hperm2.trans ?_
      exact ((List.Perm.swap { C with display_order := 3 } { B with display_order := 1 }
        []).cons { A with display_order := 2 }).trans
        (List.Perm.swap { C with display_order := 3 } { A with display_order := 2 }
          [{ B with display_order := 1 }])
    have hsorted : (List.insertionSort expLe
        ((reorderedExperiences P.id [C.id, A.id, B.id] db.experiences).filter
          (fun e => e.profile_id = P.id))).Pairwise expLe :=
      List.sorted_insertionSort expLe _
    have hneLit : ([{ C with display_order := 3 }, { A with display_order := 2 },
        { B with display_order := 1 }] : List Experience).Pairwise
        (fun a b => a.display_order ≠ b.display_order) := by
      simp [List.pairwise_cons]
    have hne : (List.insertionSort expLe
        ((reorderedExperiences P.id [C.id, A.id, B.id] db.experiences).filter
          (fun e => e.profile_id = P.id))).Pairwise
        (fun a b => a.display_order ≠ b.display_order) :=
      (hpl.pairwise_iff (fun h => Ne.symm h)).mpr hneLit
    have hlt := pairwise_expLt_of_expLe _ hsorted hne
    have hltLit : ([{ C with display_order := 3 }, { A with display_order := 2 },
        { B with display_order := 1 }] : List Experience).Pairwise expLt := by
      simp [List.pairwise_cons, expLt]
    have heq := List.eq_of_perm_of_sorted hpl hlt hltLit
    rw [heq]
    simp

/-- Project half of the reorder-direction property: after an authorised
reorder with id list `[C, A, B]` (assigning 0, 1, 2), the ascending listing
returns ids in exactly that order. -/
theorem reorder_then_list_projects (db : DB) (P : Profile) (uid : String)
    (A B C : Project)
    (hfind : db.profiles.find? (fun p => p.id = P.id) = some P)
    (hown : P.user_id = uid)
    (hperm : (db.projects.filter (fun pr => pr.profile_id = P.id)).Perm [A, B, C])
    (hAB : A.id ≠ B.id) (hAC : A.id ≠ C.id) (hBC : B.id ≠ C.id) :
    ∃ db2 res,
      ProjectService.reorder_projects db P.id uid [C.id, A.id, B.id] = .ok (db2, res) ∧
      (ProjectService.get_profile_projects db2 P.id).map (fun pr => pr.id)
        = [C.id, A.id, B.id] := by
  have hnd : ([C.id, A.id, B.id] : List String).Nodup := by
    simp [List.nodup_cons]
    exact ⟨⟨Ne.symm hAC, Ne.symm hBC⟩, hAB⟩
  have hAf : A ∈ db.projects.filter (fun pr => pr.profile_id = P.id) :=
    hperm.mem_iff.mpr (by simp)
  have hBf : B ∈ db.projects.filter (fun pr => pr.profile_id = P.id) :=
    hperm.mem_iff.mpr (by simp)
  have hCf : C ∈ db.projects.filter (fun pr => pr.profile_id = P.id) :=
    hperm.mem_iff.mpr (by simp)
  have hApid : A.profile_id = P.id := by simpa using List.of_mem_filter hAf
  have hBpid : B.profile_id = P.id := by simpa using List.of_mem_filter hBf
  have hCpid : C.profile_id = P.id := by simpa using List.of_mem_filter hCf
  have hre := reorder_projects_ok_eq db P P.id uid [C.id, A.id, B.id] hfind hown hnd
  have iC : List.indexOf C.id [C.id, A.id, B.id] = 0 := List.indexOf_cons_self _ _
  have iA : List.indexOf A.id [C.id, A.id, B.id] = 1 := by
    rw [List.indexOf_cons_ne _ (Ne.symm hAC), List.indexOf_cons_self]
  have iB : List.indexOf B.id [C.id, A.id, B.id] = 2 := by
    rw [List.indexOf_cons_ne _ (Ne.symm hBC), List.indexOf_cons_ne _ hAB,
      List.indexOf_cons_self]
  have h3 : reorderedProjects P.id [C.id, A.id, B.id] [A, B, C] =
      [{ A with display_order := 1 }, { B with display_order := 2 },
       { C with display_order := 0 }] := by
    unfold reorderedProjects
    simp only [List.map_cons, List.map_nil]
    rw [if_pos ⟨hApid, by simp⟩, if_pos ⟨hBpid, by simp⟩, if_pos ⟨hCpid, by simp⟩]
    rw [iA, iB, iC]
    norm_num
  have hfil : (reorderedProjects P.id [C.id, A.id, B.id] db.projects).filter
      (fun pr => pr.profile_id = P.id) =
      reorderedProjects P.id [C.id, A.id, B.id]
        (db.projects.filter (fun pr => pr.profile_id = P.id)) := by
    unfold reorderedProjects
    rw [List.filter_map]
    congr 1
    apply List.filter_congr
    intro pr _
    simp only [Function.comp_apply]
    by_cases hm : pr.profile_id = P.id ∧ pr.id ∈ [C.id, A.id, B.id]
    · rw [if_pos hm]
    · rw [if_neg hm]
  have hperm2 : (reorderedProjects P.id [C.id, A.id, B.id]
      (db.projects.filter (fun pr => pr.profile_id = P.id))).Perm
      [{ A with display_order := 1 }, { B with display_order := 2 },
       { C with display_order := 0 }] := by
    have hp2 := hperm.map (fun pr =>
      if pr.profile_id = P.id ∧ pr.id ∈ [C.id, A.id, B.id] then
        { pr with display_order := (List.indexOf pr.id [C.id, A.id, B.id] : Int) }
      else pr)
    rw [show (List.map (fun pr =>
        if pr.profile_id = P.id ∧ pr.id ∈ [C.id, A.id, B.id] then
          { pr with display_order := (List.indexOf pr.id [C.id, A.id, B.id] : Int) }
        else pr) [A, B, C]) =
      reorderedProjects P.id [C.id, A.id, B.id] [A, B, C] from rfl] at hp2
    rw [h3] at hp2
    exact hp2
  refine ⟨_, _, hre, ?_⟩
  have hpl : (ProjectService.get_profile_projects
      { db with projects := reorderedProjects P.id [C.id, A.id, B.id] db.projects }
      P.id).Perm
      [{ C with display_order := 0 }, { A with display_order := 1 },
       { B with display_order := 2 }] := by
    refine (List.perm_insertionSort projLe _).trans ?_
    show ((reorderedProjects P.id [C.id, A.id, B.id] db.projects).filter
      (fun pr => pr.profile_id = P.id)).Perm _
    rw [hfil]
    refine hperm2.trans ?_
    exact ((List.Perm.swap { C with display_order := 0 } { B with display_order := 2 }
      []).cons { A with display_order := 1 }).trans
      (List.Perm.swap { C with display_order := 0 } { A with display_order := 1 }
        [{ B with display_order := 2 }])
  have hsorted : (ProjectService.get_profile_projects
      { db with projects := reorderedProjects P.id [C.id, A.id, B.id] db.projects }
      P.id).Pairwise projLe :=
    List.sorted_insertionSort projLe _
  have hneLit : ([{ C with display_order := 0 }, { A with display_order := 1 },
      { B with display_order := 2 }] : List Project).Pairwise
      (fun a b => a.display_order ≠ b.display_order) := by
    simp [List.pairwise_cons]
  have hne := (hpl.pairwise_iff (fun h => Ne.symm h)).mpr hneLit
  have hlt := pairwise_projLt_of_projLe _ hsorted hne
  have hltLit : ([{ C with display_order := 0 }, { A with display_order := 1 },
      { B with display_order := 2 }] : List Project).Pairwise projLt := by
    simp [List.pairwise_cons, projLt]
  have heq := List.eq_of_perm_of_sorted hpl hlt hltLit
  rw [heq]
  simp

/-- C5: for a profile owning experiences [A,B,C] in arbitrary stored order,
experience-reorder with ["C","A","B"] followed by listing yields the external
order [C,A,B], and project-reorder with ["C","A","B"] on its projects
followed by listing yields the same external order [C,A,B], even though the
experience reorder assigns descending display orders (first id highest) while
the project reorder assigns ascending ones (first id 0). -/
theorem reorder_then_list_direction :
    (∀ (db : DB) (P : Profile) (uid : String) (A B C : Experience),
      db.profiles.find? (fun p => p.id = P.id) = some P →
      P.user_id = uid →
      (db.experiences.filter (fun e => e.profile_id = P.id)).Perm [A, B, C] →
      A.id ≠ B.id → A.id ≠ C.id → B.id ≠ C.id →
      ∃ db2 res l,
        ExperienceService.reorder_experiences db P.id uid [C.id, A.id, B.id] = .ok (db2, res) ∧
        ExperienceService.get_experiences_by_profile db2 P.id (some uid) = .ok l ∧
        l.map (fun e => e.id) = [C.id, A.id, B.id]) ∧
    (∀ (db : DB) (P : Profile) (uid : String) (A B C : Project),
      db.profiles.find? (fun p => p.id = P.id) = some P →
      P.user_id = uid →
      (db.projects.filter (fun pr => pr.profile_id = P.id)).Perm [A, B, C] →
      A.id ≠ B.id → A.id ≠ C.id → B.id ≠ C.id →
      ∃ db2 res,
        ProjectService.reorder_projects db P.id uid [C.id, A.id, B.id] = .ok (db2, res) ∧
        (ProjectService.get_profile_projects db2 P.id).map (fun pr => pr.id)
          = [C.id, A.id, B.id]) :=
  ⟨reorder_then_list_experiences, reorder_then_list_projects⟩

/-- Experiences "A", "B", "C" of profile "P1". -/
def expA : Experience := { sampleExperience with id := "A" }

/-- Second experience of the reorder example. -/
def expB : Experience := { sampleExperience with id := "B", display_order := 4 }

/-- Third experience of the reorder example. -/
def expC : Experience := { sampleExperience with id := "C", display_order := 9 }

/-- A sample project used as a base record for concrete instances. -/
def sampleProject : Project :=
  { id := "PA", profile_id := "P1", name := "Proj", description := none, status := "ACTIVE",
    category := "PRODUCTION", scale := "MEDIUM", start_date := none, end_date := none,
    client := none, technologies := [], achievements := [], challenges := [],
    display_order := 0, created_at := 0 }

/-- Projects "PA", "PB", "PC" of profile "P1". -/
def projA : Project := sampleProject

/-- Second project of the reorder example. -/
def projB : Project := { sampleProject with id := "PB", display_order := 5 }

/-- Third project of the reorder example. -/
def projC : Project := { sampleProject with id := "PC", display_order := 2 }

/-- A store where profile "P1" owns the three experiences and the three
projects of the reorder example. -/
def expProjDB : DB := ⟨[sampleProfile], [expA, expB, expC], [projA, projB, projC]⟩

/-- Witness for C5 at a concrete store: both reorders with the ["C","A","B"]
id order make the subsequent listing return ids in that order. -/
theorem reorder_then_list_direction_witness :
    (∃ db2 res l,
      ExperienceService.reorder_experiences expProjDB "P1" "u1" ["C", "A", "B"] = .ok (db2, res) ∧
      ExperienceService.get_experiences_by_profile db2 "P1" (some "u1") = .ok l ∧
      l.map (fun e => e.id) = ["C", "A", "B"]) ∧
    (∃ db2 res,
      ProjectService.reorder_projects expProjDB "P1" "u1" ["PC", "PA", "PB"] = .ok (db2, res) ∧
      (ProjectService.get_profile_projects db2 "P1").map (fun pr => pr.id)
        = ["PC", "PA", "PB"]) := by
  exact ⟨reorder_then_list_direction.1 expProjDB sampleProfile "u1" expA expB expC
      (by decide) (by decide) (by decide) (by decide) (by decide) (by decide),
    reorder_then_list_direction.2 expProjDB sampleProfile "u1" projA projB projC
      (by decide) (by decide) (by decide) (by decide) (by decide) (by decide)⟩
